import Mathlib

/-!
Verification development for the gpt-oss-20b agent repository
(src/simple_agent.py and src/advanced_agent.py).

Python strings are modelled as `List Char` (`PyStr`); JSON values produced by
`json.loads` / `response.json()` as the inductive `Json`.  External
collaborators (the chat-completions endpoint, the MCP tool gateway, the
`json` standard library and the wall clock) are modelled as oracles: arbitrary
functions supplied as parameters, exactly at the boundaries where the code
calls `requests` / `json.loads` / `datetime.now`.  Fallible code is modelled
with `Except` (an `Except.error` is a raised Python exception).
-/

/-- Python `str` values, modelled as their character sequences. -/
abbrev PyStr := List Char

/-- Coerces a Lean string literal to the `PyStr` model. -/
def lit (s : String) : PyStr := s.data

/-- Whitespace characters stripped by Python `str.strip()` (ASCII range;
non-ASCII unicode whitespace is not modelled). -/
def isPySpace (c : Char) : Bool :=
  c = ' ' || c = '\t' || c = '\n' || c = '\r' || c = '\x0b' || c = '\x0c'

/-- Python `s.strip()`: drop whitespace from both ends. -/
def pyStrip (s : PyStr) : PyStr :=
  ((s.dropWhile isPySpace).reverse.dropWhile isPySpace).reverse

/-- Python `s.startswith(p)`. -/
def pyStartsWith (p s : PyStr) : Bool := p.isPrefixOf s

/-- Python `sub in s` (substring containment). -/
def pyContains : PyStr → PyStr → Bool
  | s@(_ :: rest), sub => sub.isPrefixOf s || pyContains rest sub
  | [], sub => sub.isEmpty

/-- Python `l[-n:]`: the most recent `n` elements of a list. -/
def lastN (n : Nat) (l : List α) : List α := l.drop (l.length - n)

/-- Python `sep.join(parts)`. -/
def joinSep (sep : PyStr) : List PyStr → PyStr
  | [] => []
  | [x] => x
  | x :: xs => x ++ sep ++ joinSep sep xs

/-- Decimal digit character for a value below ten (ten and above clamp to 9;
never reached by `natDecimalAux`). -/
def digitChar : Nat → Char
  | 0 => '0' | 1 => '1' | 2 => '2' | 3 => '3' | 4 => '4'
  | 5 => '5' | 6 => '6' | 7 => '7' | 8 => '8' | _ => '9'

/-- Decimal rendering of a natural number, with explicit fuel so that the
recursion is structural (the fuel bounds the digit count). -/
def natDecimalAux : Nat → Nat → PyStr
  | 0, _ => []
  | fuel + 1, n =>
    if n < 10 then [digitChar n]
    else natDecimalAux fuel (n / 10) ++ [digitChar (n % 10)]

/-- Python `str(i)` for a non-negative integer `i` (as interpolated by
f-strings such as `f"step_{i}_{agent_name}"`). -/
def natDecimal (n : Nat) : PyStr := natDecimalAux (n + 1) n

/-- Numeric value of a decimal digit character. -/
def digitVal (c : Char) : Nat :=
  match c with
  | '0' => 0 | '1' => 1 | '2' => 2 | '3' => 3 | '4' => 4
  | '5' => 5 | '6' => 6 | '7' => 7 | '8' => 8 | '9' => 9
  | _ => 0

/-- Value of a digit string, used to show `natDecimal` is injective. -/
def digitsVal (l : PyStr) : Nat := l.foldl (fun a c => 10 * a + digitVal c) 0

/-- Python `dict` with string keys, as an insertion-ordered association list.
Lookup returns the first (unique) binding. -/
def alistFind : List (PyStr × α) → PyStr → Option α
  | [], _ => none
  | (k, v) :: rest, key => if k = key then some v else alistFind rest key

/-- Python `d[key] = v`: overwrite in place if the key is present, otherwise
append a fresh binding (insertion order preserved). -/
def alistSet : List (PyStr × α) → PyStr → α → List (PyStr × α)
  | [], key, v => [(key, v)]
  | (k, w) :: rest, key, v =>
    if k = key then (k, v) :: rest else (k, w) :: alistSet rest key v

/-- JSON values, as produced by `json.loads` / `response.json()`.  Numbers are
modelled as integers (no claim depends on floats inside JSON). -/
inductive Json where
  | null : Json
  | bool : Bool → Json
  | num : Int → Json
  | str : PyStr → Json
  | arr : List Json → Json
  | obj : List (PyStr × Json) → Json

/-- Python `d.get(k)` on a parsed JSON value: `none` both for a missing key
and for a non-dict value (where subscripting would fail). -/
def objGet : Json → PyStr → Option Json
  | Json.obj kvs, k => alistFind kvs k
  | _, _ => none

/-- Python `xs[i]` on a parsed JSON value, as an `Option`. -/
def jsonIndex : Json → Nat → Option Json
  | Json.arr xs, i => xs[i]?
  | _, _ => none

/-- Python `v == "s"` for a value read out of parsed JSON (`None` when the key
was absent): true exactly when the value is that string. -/
def jsonIsStr (v : Option Json) (s : PyStr) : Bool :=
  match v with
  | some (Json.str t) => decide (t = s)
  | _ => false

/-- Extraction `response_json["choices"][0]["message"]["content"]` used by both
agents; `none` models the `KeyError`/`IndexError`/`TypeError` path.  The
completion endpoint contract (spec section 1) gives string content, so non-string
content is also mapped to `none`. -/
def getContent (j : Json) : Option PyStr :=
  match objGet j (lit "choices") with
  | some cs =>
    match jsonIndex cs 0 with
    | some c0 =>
      match objGet c0 (lit "message") with
      | some m =>
        match objGet m (lit "content") with
        | some (Json.str s) => some s
        | _ => none
      | none => none
    | none => none
  | none => none

/-- Decimal rendering of a Python int (used by `str()` on parsed numbers). -/
def intDecimal (n : Int) : PyStr :=
  if n < 0 then '-' :: natDecimal n.natAbs else natDecimal n.toNat

mutual

/-- Python `repr` of a value parsed from JSON, as used inside container
displays: strings are quoted with single quotes (quote/control escaping inside
the string is not modelled), dicts and lists use their literal displays. -/
def pyRepr : Json → PyStr
  | Json.null => lit "None"
  | Json.bool true => lit "True"
  | Json.bool false => lit "False"
  | Json.num n => intDecimal n
  | Json.str s => '\'' :: s ++ ['\'']
  | Json.arr xs => '[' :: pyReprList xs ++ [']']
  | Json.obj kvs => '\x7b' :: pyReprFields kvs ++ ['\x7d']

/-- Comma-joined `repr`s of list elements. -/
def pyReprList : List Json → PyStr
  | [] => []
  | [x] => pyRepr x
  | x :: xs => pyRepr x ++ lit ", " ++ pyReprList xs

/-- Comma-joined `'key': repr` pairs of dict entries. -/
def pyReprFields : List (PyStr × Json) → PyStr
  | [] => []
  | [(k, v)] => '\'' :: k ++ ['\''] ++ lit ": " ++ pyRepr v
  | (k, v) :: kvs => '\'' :: k ++ ['\''] ++ lit ": " ++ pyRepr v ++ lit ", " ++ pyReprFields kvs

end

/-- Python `str()` of a value parsed from JSON (f-string interpolation): a
string interpolates bare, containers interpolate as their displays. -/
def pyStrOf : Json → PyStr
  | Json.str s => s
  | v => pyRepr v

/-- One chat message `{"role": ..., "content": ...}`. -/
structure Message where
  role : PyStr
  content : PyStr
deriving DecidableEq

namespace SimpleAgent

/-- Configuration dataclass `AgentConfig` of src/simple_agent.py.  The float
`temperature` is modelled as a rational (it is only stored and compared). -/
structure AgentConfig where
  model_url : PyStr
  model_name : PyStr
  max_tokens : Nat
  temperature : Rat
  reasoning_level : PyStr
deriving DecidableEq

/-- Outcome of one `requests.post` to the chat-completions endpoint:
either a transport-level `requests.RequestException` carrying message text, or
an HTTP response with a status code and a body (`none` = body that
`response.json()` cannot parse). -/
inductive ReqOutcome where
  | exn : PyStr → ReqOutcome
  | resp : Nat → Option Json → ReqOutcome

/-- Embeds `GPTOSSAgent._make_request`.  `raise_for_status` raises `HTTPError`
for statuses 400-599 (its message text, built by `requests` from the response,
is supplied by the oracle `httpMsg`); every `requests.RequestException` is
re-raised as `Exception("Error communicating with model: ...")`, modelled as
`Except.error`.  An unparseable body raises `requests` JSONDecodeError, also a
`RequestException`, with message text `decodeMsg`. -/
def make_request (httpMsg : Nat → PyStr) (decodeMsg : PyStr)
    (out : ReqOutcome) : Except PyStr Json :=
  match out with
  | ReqOutcome.exn m => Except.error (lit "Error communicating with model: " ++ m)
  | ReqOutcome.resp status body =>
    if 400 ≤ status ∧ status < 600 then
      Except.error (lit "Error communicating with model: " ++ httpMsg status)
    else
      match body with
      | some j => Except.ok j
      | none => Except.error (lit "Error communicating with model: " ++ decodeMsg)

/-- Discovery outcomes on which the claim about `_make_request` fails:
a transport exception, an HTTP error status, or an unparseable body. -/
def failingOutcome : ReqOutcome → Prop
  | ReqOutcome.exn _ => True
  | ReqOutcome.resp status body => (400 ≤ status ∧ status < 600) ∨ body = none

/-- Oracle bundle for the simple agent: the completion endpoint behaviour per
message list, plus the exception-message rendering of the `requests`/`json`
libraries. -/
structure Oracles where
  http : List Message → ReqOutcome
  httpMsg : Nat → PyStr
  decodeMsg : PyStr
  keyMsg : PyStr

/-- Embeds `GPTOSSAgent.chat`.  Returns the assistant text and the updated
conversation history; `Except.error` models an exception propagating to the
caller (transport failure inside `_make_request`, or a `KeyError` while
extracting `["choices"][0]["message"]["content"]`, message text `o.keyMsg`).
History is appended with the user and assistant entries and then trimmed in
place to the most recent 10 entries when it exceeds 10. -/
def chat (o : Oracles) (cfg : AgentConfig) (history : List Message)
    (user_input : PyStr) (system_prompt : Option PyStr) :
    Except PyStr (PyStr × List Message) :=
  let sysContent :=
    match system_prompt with
    | some sp => sp ++ lit "\nReasoning: " ++ cfg.reasoning_level
    | none => lit "You are a helpful AI assistant. Reasoning: " ++ cfg.reasoning_level
  let messages := ⟨lit "system", sysContent⟩ :: (history ++ [⟨lit "user", user_input⟩])
  match make_request o.httpMsg o.decodeMsg (o.http messages) with
  | Except.error e => Except.error e
  | Except.ok j =>
    match getContent j with
    | none => Except.error o.keyMsg
    | some assistant_response =>
      let h1 := history ++ [⟨lit "user", user_input⟩, ⟨lit "assistant", assistant_response⟩]
      let h2 := if h1.length > 10 then lastN 10 h1 else h1
      Except.ok (assistant_response, h2)

/-- System prompt literal of `GPTOSSAgent.think` (Python triple-quoted string,
including its embedded newline and indentation). -/
def thinkPrompt : PyStr :=
  lit "You are an expert problem solver. Break down complex tasks into steps, \n        analyze each component carefully, and provide detailed reasoning for your approach."

/-- Embeds `GPTOSSAgent.think`: temporarily overrides `config.reasoning_level`,
delegates to `chat`, and restores the original level in a `finally` block on
both the normal and the exceptional path.  Returns (chat outcome, config after
the call, history after the call). -/
def think (o : Oracles) (cfg : AgentConfig) (history : List Message)
    (task : PyStr) (reasoning_level : PyStr) :
    Except PyStr PyStr × AgentConfig × List Message :=
  let cfg1 := { cfg with reasoning_level := reasoning_level }
  match chat o cfg1 history task (some thinkPrompt) with
  | Except.ok (r, h') =>
    (Except.ok r, { cfg1 with reasoning_level := cfg.reasoning_level }, h')
  | Except.error e =>
    (Except.error e, { cfg1 with reasoning_level := cfg.reasoning_level }, history)

/-- Embeds `GPTOSSAgent.reset_conversation`: the history becomes empty. -/
def reset_conversation (_history : List Message) : List Message := []

end SimpleAgent

namespace MultiAgent

/-- Configuration dataclass `AgentConfig` of src/advanced_agent.py. -/
structure AgentConfig where
  model_url : PyStr
  model_name : PyStr
  mcp_gateway_url : PyStr
  reasoning_level : PyStr
  max_tokens : Nat
  temperature : Rat
deriving DecidableEq

/-- Outcome of the `requests.get(f"{gateway_url}/tools")` discovery call:
transport exception, or status plus body (`none` = unparseable body, where
`response.json()` raises). -/
inductive GetOutcome where
  | exn : PyStr → GetOutcome
  | resp : Nat → Option Json → GetOutcome

/-- Embeds `MCPToolManager._discover_tools`: the whole body runs inside
`try/except Exception`, so the result is the final value of
`self.available_tools` (initialised to the empty dict).  Only a 200 status with
a parseable body populates it; every failure leaves it empty, and no exception
escapes. -/
def discover_tools (out : GetOutcome) : Json :=
  match out with
  | GetOutcome.exn _ => Json.obj []
  | GetOutcome.resp status body =>
    if status = 200 then
      match body with
      | some j => j
      | none => Json.obj []
    else Json.obj []

/-- Discovery outcomes that the spec calls failures: transport exception,
non-200 status, or unparseable body. -/
def discFailure : GetOutcome → Prop
  | GetOutcome.exn _ => True
  | GetOutcome.resp status body => status ≠ 200 ∨ body = none

/-- State of `MCPToolManager` after construction. -/
structure MCPToolManager where
  gateway_url : PyStr
  available_tools : Json

/-- Embeds the `MCPToolManager.__init__` constructor: stores the gateway URL
and runs `_discover_tools` once; the constructor itself never raises. -/
def mcpToolManagerInit (gateway_url : PyStr) (out : GetOutcome) : MCPToolManager :=
  ⟨gateway_url, discover_tools out⟩

/-- Outcome of the `requests.post(f"{gateway_url}/call")` tool invocation:
transport exception, or a body (`none` = unparseable, where `response.json()`
raises).  The status code is never consulted by the code. -/
inductive PostOutcome where
  | exn : PyStr → PostOutcome
  | resp : Option Json → PostOutcome

/-- Embeds `MCPToolManager.call_tool`: returns the parsed response body, and
degrades every exception to `{"error": "Tool call failed: ..."}` — it never
raises past this boundary. -/
def call_tool (out : PostOutcome) : Json :=
  match out with
  | PostOutcome.exn m => Json.obj [(lit "error", Json.str (lit "Tool call failed: " ++ m))]
  | PostOutcome.resp (some j) => j
  | PostOutcome.resp none =>
    Json.obj [(lit "error", Json.str (lit "Tool call failed: invalid JSON body"))]

/-- One `CrewAgent`: role, goal, backstory, tool allow-list and its own
conversation history. -/
structure CrewAgent where
  role : PyStr
  goal : PyStr
  backstory : PyStr
  tools : List PyStr
  conversation_history : List Message
deriving DecidableEq

/-- Embeds `CrewAgent.get_system_prompt` (the braces of the JSON template are
written `\x7b`/`\x7d`). -/
def get_system_prompt (a : CrewAgent) : PyStr :=
  let tools_desc :=
    if a.tools.isEmpty then lit "No tools available"
    else lit "Available tools: " ++ joinSep (lit ", ") a.tools
  lit "You are a " ++ a.role ++ lit ".\n\nGoal: " ++ a.goal ++
    lit "\n\nBackstory: " ++ a.backstory ++ lit "\n\n" ++ tools_desc ++
    lit "\n\nWhen using tools, respond with JSON in this format:\n\x7b\"action\": \"use_tool\", \"tool\": \"tool_name\", \"parameters\": \x7b\"param\": \"value\"\x7d\x7d\n\nOtherwise, respond normally to help achieve your goal."

/-- One workflow step `{"agent": ..., "task": ...}`. -/
structure WorkflowStep where
  agent : PyStr
  task : PyStr
deriving DecidableEq

/-- One recorded step result (the timestamp comes from the clock oracle). -/
structure StepResult where
  task : PyStr
  result : PyStr
  timestamp : PyStr
deriving DecidableEq

/-- One record appended to `self.task_results` after a workflow run. -/
structure WorkflowRecord where
  workflow : List WorkflowStep
  results : List (PyStr × StepResult)
  timestamp : PyStr

/-- State of a `MultiAgentSystem`: configuration, tool manager, the named
agents (an insertion-ordered dict), and the run history. -/
structure MultiAgentSystem where
  config : AgentConfig
  mcp_manager : MCPToolManager
  agents : List (PyStr × CrewAgent)
  task_results : List WorkflowRecord

/-- Oracle bundle for the multi-agent system.
`llm` is the behaviour of `_make_llm_request`, which is total: it returns the
assistant content on success and an inline `"Error: ..."` string on any
exception (its internal structure is embedded separately as
`make_llm_request`); `loads` is `json.loads` (`none` = `json.JSONDecodeError`);
`toolHttp` is the transport behaviour behind `call_tool` for a given payload
(tool, parameters); `clock` gives `datetime.now().isoformat()` at the i-th
step, `clockEnd` at the final record. -/
structure Oracles where
  llm : List Message → PyStr
  loads : PyStr → Option Json
  toolHttp : Json → Json → PostOutcome
  clock : Nat → PyStr
  clockEnd : PyStr

/-- Embeds `MultiAgentSystem._make_llm_request`: `except Exception` reduces
every failure (transport `exn`, `raise_for_status` on 4xx/5xx with message
`httpMsg status`, unparseable body with message `decodeMsg`, missing key with
message `keyMsg`) to an inline `"Error: ..."` string — the function is total,
which is why `Oracles.llm` can stand for it as an arbitrary total function. -/
def make_llm_request (httpMsg : Nat → PyStr) (decodeMsg keyMsg : PyStr)
    (out : SimpleAgent.ReqOutcome) : PyStr :=
  match out with
  | SimpleAgent.ReqOutcome.exn m => lit "Error: " ++ m
  | SimpleAgent.ReqOutcome.resp status body =>
    if 400 ≤ status ∧ status < 600 then lit "Error: " ++ httpMsg status
    else
      match body with
      | none => lit "Error: " ++ decodeMsg
      | some j =>
        match getContent j with
        | some c => c
        | none => lit "Error: " ++ keyMsg

/-- Task prompt of `execute_agent_task`: `f"Task: {task}"`, with the
accumulated context appended only when it is non-empty. -/
def mkTaskPrompt (task context : PyStr) : PyStr :=
  match context with
  | [] => lit "Task: " ++ task
  | _ => lit "Task: " ++ task ++ (lit "\n\nContext from previous agents: " ++ context)

/-- Message list sent for a task: system prompt, the most recent 6 history
entries, then the task prompt as a user message. -/
def taskMessages (agent : CrewAgent) (task context : PyStr) : List Message :=
  ⟨lit "system", get_system_prompt agent⟩ ::
    (lastN 6 agent.conversation_history ++ [⟨lit "user", mkTaskPrompt task context⟩])

/-- Follow-up user message after a tool round:
`f"Tool result: {tool_context}. Please provide your final response."` with
`tool_context = f"Tool {tool_name} returned: {tool_result}"`. -/
def toolResultMsg (tool_name tool_result : Json) : PyStr :=
  lit "Tool result: " ++
    (lit "Tool " ++ pyStrOf tool_name ++ lit " returned: " ++ pyStrOf tool_result) ++
    lit ". Please provide your final response."

/-- Result of `execute_agent_task`: the returned response text, the updated
system state, and the trace of external calls made (message lists sent to the
completion endpoint, and (tool, parameters) payloads sent to the gateway). -/
structure TaskOut where
  response : PyStr
  sys : MultiAgentSystem
  trace : List (List Message) × List (Json × Json)

/-- Embeds `MultiAgentSystem.execute_agent_task`.  An unknown agent name
returns the literal not-found text and changes nothing.  Otherwise one
completion call is made; if the stripped response starts with a brace AND the
raw response contains the substring "action", the response is parsed
(`json.JSONDecodeError` is absorbed: `loads = none` falls through to the
final-response path); a parsed value whose `action` field equals `"use_tool"`
triggers exactly one gateway call and exactly one follow-up completion call
whose response replaces the result.  Finally the task prompt and the final
response are appended to the agent's history (no trimming). -/
def execute_agent_task (o : Oracles) (sys : MultiAgentSystem)
    (agent_name task context : PyStr) : TaskOut :=
  match alistFind sys.agents agent_name with
  | none => ⟨lit "Agent " ++ agent_name ++ lit " not found", sys, ([], [])⟩
  | some agent =>
    let task_prompt := mkTaskPrompt task context
    let messages := taskMessages agent task context
    let response := o.llm messages
    let step2 : PyStr × List (List Message) × List (Json × Json) :=
      if pyStartsWith (lit "\x7b") (pyStrip response) && pyContains response (lit "action") then
        match o.loads response with
        | none => (response, [messages], [])
        | some action_data =>
          if jsonIsStr (objGet action_data (lit "action")) (lit "use_tool") then
            let tool_name := (objGet action_data (lit "tool")).getD Json.null
            let parameters := (objGet action_data (lit "parameters")).getD (Json.obj [])
            let tool_result := call_tool (o.toolHttp tool_name parameters)
            let messages2 := messages ++
              [⟨lit "assistant", response⟩, ⟨lit "user", toolResultMsg tool_name tool_result⟩]
            (o.llm messages2, [messages, messages2], [(tool_name, parameters)])
          else (response, [messages], [])
      else (response, [messages], [])
    let agent2 := { agent with conversation_history :=
      agent.conversation_history ++ [⟨lit "user", task_prompt⟩, ⟨lit "assistant", step2.1⟩] }
    ⟨step2.1, { sys with agents := alistSet sys.agents agent_name agent2 }, step2.2⟩

/-- Key of the i-th step result: `f"step_{i}_{agent_name}"` (1-based). -/
def stepKey (i : Nat) (agent_name : PyStr) : PyStr :=
  lit "step_" ++ natDecimal i ++ lit "_" ++ agent_name

/-- Context line appended after a step:
`f"\n{agent_name} completed: {result}\n"`. -/
def ctxLine (agent_name result : PyStr) : PyStr :=
  lit "\n" ++ agent_name ++ lit " completed: " ++ result ++ lit "\n"

/-- State after the workflow loop: the results dict, the accumulated context
buffer and the system state. -/
structure RunOut where
  results : List (PyStr × StepResult)
  context : PyStr
  sys : MultiAgentSystem

/-- The `for i, step in enumerate(workflow, 1)` loop of
`execute_crew_workflow`, with the running 1-based index `i`, the growing
`context` buffer and the `results` dict threaded through. -/
def runStepsAux (o : Oracles) : List WorkflowStep → Nat → PyStr → MultiAgentSystem →
    List (PyStr × StepResult) → RunOut
  | [], _, context, sys, acc => ⟨acc, context, sys⟩
  | step :: rest, i, context, sys, acc =>
    let out := execute_agent_task o sys step.agent step.task context
    let acc' := alistSet acc (stepKey i step.agent) ⟨step.task, out.response, o.clock i⟩
    let context' := context ++ ctxLine step.agent out.response
    runStepsAux o rest (i + 1) context' out.sys acc'

/-- Embeds `MultiAgentSystem.execute_crew_workflow`: runs the loop from index
1 with empty context and results, appends a `WorkflowRecord` to
`task_results`, and returns the results dict (paired here with the final
system state, which Python holds in `self`). -/
def execute_crew_workflow (o : Oracles) (sys : MultiAgentSystem)
    (workflow : List WorkflowStep) : List (PyStr × StepResult) × MultiAgentSystem :=
  let r := runStepsAux o workflow 1 [] sys []
  (r.results,
   { r.sys with task_results :=
      r.sys.task_results ++ [⟨workflow, r.results, o.clockEnd⟩] })

/-- Context buffer contents after the first `i` steps of a workflow (the
intermediate state of the loop, used to state the monotonic-growth claim). -/
def workflowContextAfter (o : Oracles) (sys : MultiAgentSystem)
    (workflow : List WorkflowStep) (i : Nat) : PyStr :=
  (runStepsAux o (workflow.take i) 1 [] sys []).context

end MultiAgent

/-- Boolean "returned normally" test for `Except` (a raised exception is
`Except.error`). -/
def isOkE : Except ε α → Bool
  | Except.ok _ => true
  | Except.error _ => false

/-- Claim C1 as stated: for EVERY completion response that parses as a JSON
object with action field "use_tool", tool `t` and parameters `p`, the gateway
is invoked exactly once with `(t, p)` and exactly one further completion call
produces the final result.  (No condition on the response TEXT — this is what
fails on the code, whose detection is a textual sniff.) -/
def C1_claim : Prop :=
  ∀ (o : MultiAgent.Oracles) (sys : MultiAgent.MultiAgentSystem)
    (name task context : PyStr) (agent : MultiAgent.CrewAgent)
    (j : Json) (t : PyStr) (p : Json),
    alistFind sys.agents name = some agent →
    o.loads (o.llm (MultiAgent.taskMessages agent task context)) = some j →
    objGet j (lit "action") = some (Json.str (lit "use_tool")) →
    objGet j (lit "tool") = some (Json.str t) →
    objGet j (lit "parameters") = some p →
    (MultiAgent.execute_agent_task o sys name task context).trace.2 = [(Json.str t, p)] ∧
    ∃ m2, (MultiAgent.execute_agent_task o sys name task context).trace.1 =
        [MultiAgent.taskMessages agent task context, m2] ∧
      (MultiAgent.execute_agent_task o sys name task context).response = o.llm m2

/-- Claim C7 as stated: on every failing completion outcome the simple-agent
completion client returns normally (with a textual error) instead of raising. -/
def C7_claim : Prop :=
  ∀ (httpMsg : Nat → PyStr) (decodeMsg : PyStr) (out : SimpleAgent.ReqOutcome),
    SimpleAgent.failingOutcome out →
    isOkE (SimpleAgent.make_request httpMsg decodeMsg out) = true

/-- Endpoint response body `{"choices": [{"message": {"content": s}}]}`. -/
def wrapContent (s : PyStr) : Json :=
  Json.obj [(lit "choices",
    Json.arr [Json.obj [(lit "message", Json.obj [(lit "content", Json.str s)])]])]

/-- Demo oracle bundle for the simple agent: a healthy endpoint that always
answers "Hello there". -/
def simpleDemoO : SimpleAgent.Oracles :=
  { http := fun _ => SimpleAgent.ReqOutcome.resp 200 (some (wrapContent (lit "Hello there")))
    httpMsg := fun _ => lit "500 Server Error"
    decodeMsg := lit "Expecting value"
    keyMsg := lit "KeyError" }

/-- Demo simple-agent configuration (the dataclass defaults). -/
def simpleDemoCfg : SimpleAgent.AgentConfig :=
  ⟨lit "http://localhost:12434/engines/llama.cpp/v1", lit "ai/gpt-oss",
    1000, (7 : Rat) / 10, lit "medium"⟩

/-- Demo multi-agent configuration (the dataclass defaults). -/
def advDemoCfg : MultiAgent.AgentConfig :=
  ⟨lit "http://localhost:12434/engines/llama.cpp/v1", lit "ai/gpt-oss-20b",
    lit "http://localhost:3000", lit "medium", 2000, (7 : Rat) / 10⟩

/-- Demo researcher agent (from `create_research_crew`), empty history. -/
def demoAgent : MultiAgent.CrewAgent :=
  ⟨lit "Senior Research Analyst",
    lit "Conduct thorough research on given topics using available tools",
    lit "You are an experienced researcher with access to web search and data analysis tools.",
    [lit "web_search", lit "duckduckgo", lit "wikipedia"], []⟩

/-- Demo system with a single registered agent named "researcher" and a tool
manager whose discovery failed (no-tools mode). -/
def demoSys : MultiAgent.MultiAgentSystem :=
  ⟨advDemoCfg,
   MultiAgent.mcpToolManagerInit (lit "http://localhost:3000")
     (MultiAgent.GetOutcome.exn (lit "connection refused")),
   [(lit "researcher", demoAgent)], []⟩

/-- A well-formed tool-call response text. -/
def toolCallText : PyStr :=
  lit "\x7b\"action\": \"use_tool\", \"tool\": \"calc\", \"parameters\": \x7b\"x\": 1\x7d\x7d"

/-- What `json.loads` yields on `toolCallText`. -/
def toolCallJson : Json :=
  Json.obj [(lit "action", Json.str (lit "use_tool")),
            (lit "tool", Json.str (lit "calc")),
            (lit "parameters", Json.obj [(lit "x", Json.num 1)])]

/-- A response text whose `action` key is written with the JSON escape
`\u0061` for `a`: `json.loads` parses it to an object with key "action" and
action value "use_tool", yet the TEXT does not contain the substring
"action", so the code's sniff (`'action' in response`) rejects it. -/
def escText : PyStr :=
  lit "\x7b\"\\u0061ction\": \"use_tool\", \"tool\": \"calc\", \"parameters\": \x7b\x7d\x7d"

/-- What `json.loads` yields on `escText` (`\u0061` decodes to `a`). -/
def escJson : Json :=
  Json.obj [(lit "action", Json.str (lit "use_tool")),
            (lit "tool", Json.str (lit "calc")),
            (lit "parameters", Json.obj [])]

/-- A text that starts with a brace and mentions "action" but is not JSON. -/
def badJsonText : PyStr := lit "\x7bThis text mentions action but is not JSON"

/-- Demo `json.loads`: agrees with Python on the three demo texts (everything
else in the demo runs is treated as unparseable). -/
def demoLoads : PyStr → Option Json := fun s =>
  if s = toolCallText then some toolCallJson
  else if s = escText then some escJson
  else none

/-- Demo multi-agent oracle bundle whose completion endpoint always answers
with the given text. -/
def advDemoO (resp : PyStr) : MultiAgent.Oracles :=
  { llm := fun _ => resp
    loads := demoLoads
    toolHttp := fun _ _ => MultiAgent.PostOutcome.resp (some (Json.obj [(lit "result", Json.num 2)]))
    clock := fun _ => lit "2026-10-12T00:00:00"
    clockEnd := lit "2026-10-12T00:00:00" }

/-- Demo two-step workflow: a registered agent then an unregistered one. -/
def demoWorkflow : List MultiAgent.WorkflowStep :=
  [⟨lit "researcher", lit "Research X"⟩, ⟨lit "ghost", lit "Analyze X"⟩]

namespace MultiAgent

/-- Continuation message list of a tool round for a confirmed tool request
`(t, p)`: the original messages, the tool-request response as an assistant
message, and the tool-result user message. -/
def toolRoundMessages (o : Oracles) (ag : CrewAgent) (task ctx t : PyStr) (p : Json) :
    List Message :=
  taskMessages ag task ctx ++
    [⟨lit "assistant", o.llm (taskMessages ag task ctx)⟩,
     ⟨lit "user", toolResultMsg (Json.str t) (call_tool (o.toolHttp (Json.str t) p))⟩]

end MultiAgent

/-- Message tail of the exception `GPTOSSAgent._make_request` raises on a
failing outcome: the transport exception text, the `HTTPError` text for an
error status, or the JSON-decode text for an unparseable body. -/
def reqFailureMsg (httpMsg : Nat → PyStr) (decodeMsg : PyStr) :
    SimpleAgent.ReqOutcome → PyStr
  | SimpleAgent.ReqOutcome.exn m => m
  | SimpleAgent.ReqOutcome.resp status _ =>
    if 400 ≤ status ∧ status < 600 then httpMsg status else decodeMsg

/-! Helper lemmas about the Python string model. -/

theorem pyStartsWith_prefix {p s : PyStr} : pyStartsWith p s = true ↔ p <+: s := by
  unfold pyStartsWith
  exact List.isPrefixOf_iff_prefix

theorem pyContains_infixP {s sub : PyStr} : pyContains s sub = true ↔ sub <:+: s := by
  induction s with
  | nil => simp [pyContains]
  | cons c rest ih => simp [pyContains, List.infix_cons_iff, ih]

theorem infixRev {a b : PyStr} (h : a <:+: b) : a.reverse <:+: b.reverse := by
  obtain ⟨l, r, rfl⟩ := h
  exact ⟨r.reverse, l.reverse, by simp⟩

theorem infix_dropWhileP (p : Char → Bool) {sub s : PyStr} (hne : sub ≠ [])
    (hsub : ∀ c ∈ sub, p c = false) (h : sub <:+: s) : sub <:+: s.dropWhile p := by
  obtain ⟨l, r, rfl⟩ := h
  rw [List.append_assoc, List.dropWhile_append]
  split
  · rw [List.dropWhile_append]
    have hself : sub.dropWhile p = sub := by
      cases sub with
      | nil => rfl
      | cons a as =>
        rw [List.dropWhile_cons, hsub a (by simp)]
        simp
    split
    · rename_i hemp
      rw [hself] at hemp
      exact absurd (List.isEmpty_iff.mp hemp) hne
    · rw [hself]
      exact ⟨[], r, by simp⟩
  · exact ⟨l.dropWhile p, r, by simp⟩

theorem infix_pyStrip {sub s : PyStr} (hne : sub ≠ [])
    (hsub : ∀ c ∈ sub, isPySpace c = false) (h : sub <:+: s) : sub <:+: pyStrip s := by
  unfold pyStrip
  have h1 := infix_dropWhileP isPySpace hne hsub h
  have h2 : sub.reverse <:+: (s.dropWhile isPySpace).reverse := infixRev h1
  have hne2 : sub.reverse ≠ [] := by
    intro hc
    exact hne (by simpa using congrArg List.reverse hc)
  have hsub2 : ∀ c ∈ sub.reverse, isPySpace c = false := by
    intro c hc
    exact hsub c (List.mem_reverse.mp hc)
  have h3 := infix_dropWhileP isPySpace hne2 hsub2 h2
  have h4 := infixRev h3
  simpa using h4

theorem contains_strip_action {s : PyStr}
    (h : pyContains s (lit "action") = true) :
    pyContains (pyStrip s) (lit "action") = true :=
  pyContains_infixP.mpr
    (infix_pyStrip (by decide) (by decide) (pyContains_infixP.mp h))

/-! Decimal rendering and step-key injectivity. -/

theorem digitVal_digitChar {n : Nat} (h : n < 10) : digitVal (digitChar n) = n := by
  interval_cases n <;> rfl

theorem digitsVal_natDecimalAux :
    ∀ (fuel n : Nat), n < fuel → digitsVal (natDecimalAux fuel n) = n := by
  intro fuel
  induction fuel with
  | zero => omega
  | succ f ih =>
    intro n hn
    rw [natDecimalAux]
    split
    · rename_i h10
      simp [digitsVal, List.foldl, digitVal_digitChar h10]
    · rename_i h10
      have hd : n / 10 < f := by
        have h1 : n / 10 < n := Nat.div_lt_self (by omega) (by omega)
        omega
      unfold digitsVal
      rw [List.foldl_append]
      have := ih (n / 10) hd
      unfold digitsVal at this
      rw [this]
      simp [List.foldl, digitVal_digitChar (Nat.mod_lt n (by omega))]
      omega

theorem natDecimal_inj {m n : Nat} (h : natDecimal m = natDecimal n) : m = n := by
  have hm := digitsVal_natDecimalAux (m + 1) m (by omega)
  have hn := digitsVal_natDecimalAux (n + 1) n (by omega)
  unfold natDecimal at h
  rw [← hm, ← hn, h]

theorem digitChar_ne_underscore (n : Nat) : digitChar n ≠ '_' := by
  unfold digitChar
  split <;> decide

theorem natDecimalAux_no_underscore :
    ∀ (fuel n : Nat), ∀ c ∈ natDecimalAux fuel n, c ≠ '_' := by
  intro fuel
  induction fuel with
  | zero => intro n c hc; simp [natDecimalAux] at hc
  | succ f ih =>
    intro n c hc
    rw [natDecimalAux] at hc
    split at hc
    · simp at hc
      rw [hc]
      exact digitChar_ne_underscore n
    · rcases List.mem_append.mp hc with h1 | h2
      · exact ih (n / 10) c h1
      · simp at h2
        rw [h2]
        exact digitChar_ne_underscore (n % 10)

theorem underscore_split :
    ∀ (d1 d2 a b : PyStr), (∀ c ∈ d1, c ≠ '_') → (∀ c ∈ d2, c ≠ '_') →
      d1 ++ '_' :: a = d2 ++ '_' :: b → d1 = d2 ∧ a = b := by
  intro d1
  induction d1 with
  | nil =>
    intro d2 a b _ h2 heq
    cases d2 with
    | nil => simpa using heq
    | cons x xs =>
      simp only [List.nil_append, List.cons_append, List.cons.injEq] at heq
      exact absurd heq.1.symm (h2 x (by simp))
  | cons x xs ih =>
    intro d2 a b h1 h2 heq
    cases d2 with
    | nil =>
      simp only [List.nil_append, List.cons_append, List.cons.injEq] at heq
      exact absurd heq.1 (h1 x (by simp))
    | cons y ys =>
      simp only [List.cons_append, List.cons.injEq] at heq
      obtain ⟨hxy, heq'⟩ := heq
      obtain ⟨hd, ht⟩ := ih ys a b (fun c hc => h1 c (by simp [hc]))
        (fun c hc => h2 c (by simp [hc])) heq'
      exact ⟨by rw [hxy, hd], ht⟩

theorem stepKey_inj_index {i j : Nat} {a b : PyStr}
    (h : MultiAgent.stepKey i a = MultiAgent.stepKey j b) : i = j := by
  unfold MultiAgent.stepKey at h
  rw [List.append_assoc, List.append_assoc, List.append_assoc, List.append_assoc] at h
  have h2 : natDecimal i ++ (lit "_" ++ a) = natDecimal j ++ (lit "_" ++ b) :=
    List.append_cancel_left h
  have h3 : natDecimal i ++ '_' :: a = natDecimal j ++ '_' :: b := h2
  obtain ⟨hd, _⟩ := underscore_split (natDecimal i) (natDecimal j) a b
    (natDecimalAux_no_underscore (i + 1) i) (natDecimalAux_no_underscore (j + 1) j) h3
  exact natDecimal_inj hd

/-! Association-list (Python dict) lemmas. -/

theorem alistFind_eq_none {d : List (PyStr × α)} {k : PyStr}
    (h : ∀ p ∈ d, p.1 ≠ k) : alistFind d k = none := by
  induction d with
  | nil => rfl
  | cons p rest ih =>
    obtain ⟨k', v⟩ := p
    rw [alistFind]
    rw [if_neg (h (k', v) (by simp))]
    exact ih (fun q hq => h q (by simp [hq]))

theorem alistSet_fresh {d : List (PyStr × α)} {k : PyStr} {v : α}
    (h : alistFind d k = none) : alistSet d k v = d ++ [(k, v)] := by
  induction d with
  | nil => rfl
  | cons p rest ih =>
    obtain ⟨k', w⟩ := p
    rw [alistFind] at h
    rw [alistSet]
    split
    · rename_i he
      rw [if_pos he] at h
      cases h
    · rename_i he
      rw [if_neg he] at h
      rw [ih h]
      simp

theorem alistFind_set_self (d : List (PyStr × α)) (k : PyStr) (v : α) :
    alistFind (alistSet d k v) k = some v := by
  induction d with
  | nil => simp [alistSet, alistFind]
  | cons p rest ih =>
    obtain ⟨k', w⟩ := p
    rw [alistSet]
    split
    · rename_i he
      rw [alistFind, if_pos he]
    · rename_i he
      rw [alistFind, if_neg he]
      exact ih

theorem alistFind_set_ne {d : List (PyStr × α)} {k k' : PyStr} (v : α)
    (h : k' ≠ k) : alistFind (alistSet d k v) k' = alistFind d k' := by
  induction d with
  | nil =>
    rw [alistSet, alistFind, alistFind]
    rw [if_neg (Ne.symm h)]
    rfl
  | cons p rest ih =>
    obtain ⟨k'', w⟩ := p
    rw [alistSet]
    split
    · rename_i he
      rw [alistFind, alistFind]
      split
      · rename_i hx
        exact absurd (hx.symm.trans he) h
      · rfl
    · rename_i he
      rw [alistFind, alistFind]
      split
      · rfl
      · exact ih

namespace MultiAgent

theorem exec_missing (o : Oracles) (sys : MultiAgentSystem) (name task ctx : PyStr)
    (h : alistFind sys.agents name = none) :
    execute_agent_task o sys name task ctx =
      ⟨lit "Agent " ++ name ++ lit " not found", sys, ([], [])⟩ := by
  unfold execute_agent_task
  rw [h]

theorem exec_found (o : Oracles) (sys : MultiAgentSystem) (name task ctx : PyStr)
    (ag : CrewAgent) (h : alistFind sys.agents name = some ag) :
    (execute_agent_task o sys name task ctx).sys.agents =
      alistSet sys.agents name { ag with conversation_history :=
        ag.conversation_history ++ [⟨lit "user", mkTaskPrompt task ctx⟩,
          ⟨lit "assistant", (execute_agent_task o sys name task ctx).response⟩] } := by
  unfold execute_agent_task
  rw [h]

theorem runStepsAux_cons (o : Oracles) (st : WorkflowStep) (rest : List WorkflowStep)
    (i : Nat) (ctx : PyStr) (sys : MultiAgentSystem) (acc : List (PyStr × StepResult)) :
    runStepsAux o (st :: rest) i ctx sys acc =
      runStepsAux o rest (i + 1)
        (ctx ++ ctxLine st.agent (execute_agent_task o sys st.agent st.task ctx).response)
        (execute_agent_task o sys st.agent st.task ctx).sys
        (alistSet acc (stepKey i st.agent)
          ⟨st.task, (execute_agent_task o sys st.agent st.task ctx).response, o.clock i⟩) := rfl

theorem runStepsAux_master (o : Oracles) :
    ∀ (steps : List WorkflowStep) (i : Nat) (ctx : PyStr) (sys : MultiAgentSystem)
      (acc : List (PyStr × StepResult)),
      (∀ p ∈ acc, ∀ j a, i ≤ j → p.1 ≠ stepKey j a) →
      ∃ tail,
        (runStepsAux o steps i ctx sys acc).results = acc ++ tail ∧
        tail.length = steps.length ∧
        (runStepsAux o steps i ctx sys acc).context =
          ctx ++ (List.zipWith ctxLine (steps.map WorkflowStep.agent)
            (tail.map fun e => e.2.result)).flatten ∧
        (∀ j, j < steps.length → ∃ st r,
          steps[j]? = some st ∧
          tail[j]? = some (stepKey (i + j) st.agent, ⟨st.task, r, o.clock (i + j)⟩) ∧
          (alistFind sys.agents st.agent = none →
            r = lit "Agent " ++ st.agent ++ lit " not found")) ∧
        (∀ n, (alistFind (runStepsAux o steps i ctx sys acc).sys.agents n).isSome =
          (alistFind sys.agents n).isSome) ∧
        (∀ n ag, alistFind sys.agents n = some ag → ∃ ag2,
          alistFind (runStepsAux o steps i ctx sys acc).sys.agents n = some ag2 ∧
          ag.conversation_history <+: ag2.conversation_history) := by
  intro steps
  induction steps with
  | nil =>
    intro i ctx sys acc hfresh
    refine ⟨[], by simp [runStepsAux], by simp, by simp [runStepsAux], ?_, ?_, ?_⟩
    · intro j hj
      exact absurd hj (by simp)
    · intro n
      rfl
    · intro n ag h
      exact ⟨ag, h, List.prefix_rfl⟩
  | cons st rest ih =>
    intro i ctx sys acc hfresh
    have hkey : alistFind acc (stepKey i st.agent) = none :=
      alistFind_eq_none (fun p hp => hfresh p hp i st.agent (Nat.le_refl i))
    have hfresh' : ∀ (entry : StepResult) (p : PyStr × StepResult),
        p ∈ acc ++ [(stepKey i st.agent, entry)] → ∀ j a, i + 1 ≤ j → p.1 ≠ stepKey j a := by
      intro entry p hp j a hj
      rcases List.mem_append.mp hp with hin | hin
      · exact hfresh p hin j a (by omega)
      · simp at hin
        rw [hin]
        intro hc
        have := stepKey_inj_index hc
        omega
    cases halist : alistFind sys.agents st.agent with
    | none =>
      have hexec := exec_missing o sys st.agent st.task ctx halist
      rw [runStepsAux_cons, hexec]
      rw [alistSet_fresh hkey]
      obtain ⟨tail', hres, hlen, hctx, hent, hdom, hpre⟩ :=
        ih (i + 1) (ctx ++ ctxLine st.agent (lit "Agent " ++ st.agent ++ lit " not found"))
          sys (acc ++ [(stepKey i st.agent,
            ⟨st.task, lit "Agent " ++ st.agent ++ lit " not found", o.clock i⟩)])
          (hfresh' _)
      refine ⟨(stepKey i st.agent,
        ⟨st.task, lit "Agent " ++ st.agent ++ lit " not found", o.clock i⟩) :: tail',
        ?_, ?_, ?_, ?_, hdom, hpre⟩
      · rw [hres]
        simp
      · simp [hlen]
      · rw [hctx]
        simp [List.append_assoc]
      · intro j hj
        cases j with
        | zero =>
          exact ⟨st, lit "Agent " ++ st.agent ++ lit " not found", by simp, by simp, fun _ => rfl⟩
        | succ j' =>
          obtain ⟨st', r', hst', htl', himp'⟩ := hent j' (by simpa using hj)
          have hidx : i + 1 + j' = i + (j' + 1) := by omega
          rw [hidx] at htl'
          exact ⟨st', r', by simpa using hst', by simpa using htl', himp'⟩
    | some ag =>
      have hagents := exec_found o sys st.agent st.task ctx ag halist
      have hdom1 : ∀ n,
          (alistFind (execute_agent_task o sys st.agent st.task ctx).sys.agents n).isSome =
          (alistFind sys.agents n).isSome := by
        intro n
        rw [hagents]
        by_cases hn : n = st.agent
        · rw [hn, alistFind_set_self, halist]
          rfl
        · rw [alistFind_set_ne _ hn]
      have hnone1 : ∀ nm, alistFind sys.agents nm = none →
          alistFind (execute_agent_task o sys st.agent st.task ctx).sys.agents nm = none := by
        intro nm hn
        have := hdom1 nm
        rw [hn] at this
        cases hfo : alistFind (execute_agent_task o sys st.agent st.task ctx).sys.agents nm with
        | none => rfl
        | some x =>
          rw [hfo] at this
          simp at this
      have hpre1 : ∀ n ag0, alistFind sys.agents n = some ag0 → ∃ ag1,
          alistFind (execute_agent_task o sys st.agent st.task ctx).sys.agents n = some ag1 ∧
          ag0.conversation_history <+: ag1.conversation_history := by
        intro n ag0 h0
        rw [hagents]
        by_cases hn : n = st.agent
        · rw [hn] at h0
          rw [halist] at h0
          cases h0
          rw [hn, alistFind_set_self]
          exact ⟨_, rfl, List.prefix_append _ _⟩
        · rw [alistFind_set_ne _ hn]
          exact ⟨ag0, h0, List.prefix_rfl⟩
      rw [runStepsAux_cons]
      rw [alistSet_fresh hkey]
      obtain ⟨tail', hres, hlen, hctx, hent, hdom, hpre⟩ :=
        ih (i + 1) (ctx ++ ctxLine st.agent (execute_agent_task o sys st.agent st.task ctx).response)
          (execute_agent_task o sys st.agent st.task ctx).sys
          (acc ++ [(stepKey i st.agent,
            ⟨st.task, (execute_agent_task o sys st.agent st.task ctx).response, o.clock i⟩)])
          (hfresh' _)
      refine ⟨(stepKey i st.agent,
        ⟨st.task, (execute_agent_task o sys st.agent st.task ctx).response, o.clock i⟩) :: tail',
        ?_, ?_, ?_, ?_, ?_, ?_⟩
      · rw [hres]
        simp
      · simp [hlen]
      · rw [hctx]
        simp [List.append_assoc]
      · intro j hj
        cases j with
        | zero =>
          refine ⟨st, (execute_agent_task o sys st.agent st.task ctx).response, by simp, by simp, ?_⟩
          intro hc
          rw [hc] at halist
          cases halist
        | succ j' =>
          obtain ⟨st', r', hst', htl', himp'⟩ := hent j' (by simpa using hj)
          have hidx : i + 1 + j' = i + (j' + 1) := by omega
          rw [hidx] at htl'
          refine ⟨st', r', by simpa using hst', by simpa using htl', ?_⟩
          intro hmiss
          exact himp' (hnone1 _ hmiss)
      · intro n
        rw [hdom n, hdom1 n]
      · intro n ag0 h0
        obtain ⟨ag1, h1, hp1⟩ := hpre1 n ag0 h0
        obtain ⟨ag2, h2, hp2⟩ := hpre n ag1 h1
        exact ⟨ag2, h2, hp1.trans hp2⟩

end MultiAgent

namespace MultiAgent

theorem runStepsAux_append (o : Oracles) :
    ∀ (s₁ s₂ : List WorkflowStep) (i : Nat) (ctx : PyStr) (sys : MultiAgentSystem)
      (acc : List (PyStr × StepResult)),
      runStepsAux o (s₁ ++ s₂) i ctx sys acc =
        runStepsAux o s₂ (i + s₁.length) (runStepsAux o s₁ i ctx sys acc).context
          (runStepsAux o s₁ i ctx sys acc).sys (runStepsAux o s₁ i ctx sys acc).results := by
  intro s₁
  induction s₁ with
  | nil =>
    intro s₂ i ctx sys acc
    simp [runStepsAux]
  | cons st rest ih =>
    intro s₂ i ctx sys acc
    rw [List.cons_append, runStepsAux_cons, runStepsAux_cons, ih]
    have h : i + (st :: rest).length = i + 1 + rest.length := by
      simp
      omega
    rw [h]

theorem exec_notool (o : Oracles) (sys : MultiAgentSystem) (name task ctx : PyStr)
    (ag : CrewAgent) (h : alistFind sys.agents name = some ag)
    (hcond : (pyStartsWith (lit "\x7b") (pyStrip (o.llm (taskMessages ag task ctx))) &&
      pyContains (o.llm (taskMessages ag task ctx)) (lit "action")) = false) :
    execute_agent_task o sys name task ctx =
      ⟨o.llm (taskMessages ag task ctx),
       { sys with agents := alistSet sys.agents name { ag with conversation_history :=
          ag.conversation_history ++ [⟨lit "user", mkTaskPrompt task ctx⟩,
            ⟨lit "assistant", o.llm (taskMessages ag task ctx)⟩] } },
       ([taskMessages ag task ctx], [])⟩ := by
  unfold execute_agent_task
  rw [h]
  dsimp only
  rw [hcond]
  rfl

end MultiAgent

namespace MultiAgent

theorem exec_badjson (o : Oracles) (sys : MultiAgentSystem) (name task ctx : PyStr)
    (ag : CrewAgent) (h : alistFind sys.agents name = some ag)
    (hcond : (pyStartsWith (lit "\x7b") (pyStrip (o.llm (taskMessages ag task ctx))) &&
      pyContains (o.llm (taskMessages ag task ctx)) (lit "action")) = true)
    (hloads : o.loads (o.llm (taskMessages ag task ctx)) = none) :
    execute_agent_task o sys name task ctx =
      ⟨o.llm (taskMessages ag task ctx),
       { sys with agents := alistSet sys.agents name { ag with conversation_history :=
          ag.conversation_history ++ [⟨lit "user", mkTaskPrompt task ctx⟩,
            ⟨lit "assistant", o.llm (taskMessages ag task ctx)⟩] } },
       ([taskMessages ag task ctx], [])⟩ := by
  unfold execute_agent_task
  rw [h]
  dsimp only
  rw [hcond]
  rw [hloads]
  rfl

theorem exec_tool (o : Oracles) (sys : MultiAgentSystem) (name task ctx : PyStr)
    (ag : CrewAgent) (j : Json) (t : PyStr) (p : Json)
    (h : alistFind sys.agents name = some ag)
    (hcond : (pyStartsWith (lit "\x7b") (pyStrip (o.llm (taskMessages ag task ctx))) &&
      pyContains (o.llm (taskMessages ag task ctx)) (lit "action")) = true)
    (hloads : o.loads (o.llm (taskMessages ag task ctx)) = some j)
    (hact : objGet j (lit "action") = some (Json.str (lit "use_tool")))
    (htool : objGet j (lit "tool") = some (Json.str t))
    (hparams : objGet j (lit "parameters") = some p) :
    execute_agent_task o sys name task ctx =
      ⟨o.llm (toolRoundMessages o ag task ctx t p),
       { sys with agents := alistSet sys.agents name { ag with conversation_history :=
          ag.conversation_history ++ [⟨lit "user", mkTaskPrompt task ctx⟩,
            ⟨lit "assistant", o.llm (toolRoundMessages o ag task ctx t p)⟩] } },
       ([taskMessages ag task ctx, toolRoundMessages o ag task ctx t p],
        [(Json.str t, p)])⟩ := by
  have hj : jsonIsStr (objGet j (lit "action")) (lit "use_tool") = true := by
    rw [hact]
    rfl
  unfold execute_agent_task
  rw [h]
  dsimp only
  rw [hcond]
  rw [hloads]
  dsimp only
  rw [hj]
  rw [htool, hparams]
  rfl

end MultiAgent

/-- C4: for every response whose whitespace-trimmed form does not start with
the brace character or does not contain the literal substring "action",
tool-call detection classifies the response as final: the tool gateway is
never invoked, no second completion call is made, and the response text itself
(unchanged) is the task's result. -/
theorem thm_C4 (o : MultiAgent.Oracles) (sys : MultiAgent.MultiAgentSystem)
    (name task context : PyStr) (agent : MultiAgent.CrewAgent)
    (hag : alistFind sys.agents name = some agent)
    (hcond : pyStartsWith (lit "\x7b")
        (pyStrip (o.llm (MultiAgent.taskMessages agent task context))) = false ∨
      pyContains (pyStrip (o.llm (MultiAgent.taskMessages agent task context)))
        (lit "action") = false) :
    (MultiAgent.execute_agent_task o sys name task context).response =
      o.llm (MultiAgent.taskMessages agent task context) ∧
    (MultiAgent.execute_agent_task o sys name task context).trace =
      ([MultiAgent.taskMessages agent task context], []) := by
  have hfalse : (pyStartsWith (lit "\x7b")
      (pyStrip (o.llm (MultiAgent.taskMessages agent task context))) &&
      pyContains (o.llm (MultiAgent.taskMessages agent task context)) (lit "action")) = false := by
    rcases hcond with h1 | h2
    · rw [h1]
      rfl
    · have hB : pyContains (o.llm (MultiAgent.taskMessages agent task context))
          (lit "action") = false := by
        cases hBv : pyContains (o.llm (MultiAgent.taskMessages agent task context))
            (lit "action") with
        | false => rfl
        | true =>
          have hs := contains_strip_action hBv
          rw [h2] at hs
          exact Bool.noConfusion hs
      rw [hB]
      rw [Bool.and_false]
  have hE := MultiAgent.exec_notool o sys name task context agent hag hfalse
  rw [hE]
  exact ⟨rfl, rfl⟩

/-- C4 witness: a concrete run on a plain (non-brace) response. -/
theorem thm_C4_witness :
    alistFind demoSys.agents (lit "researcher") = some demoAgent ∧
    (MultiAgent.execute_agent_task (advDemoO (lit "Plain final answer.")) demoSys
        (lit "researcher") (lit "T") []).response =
      (advDemoO (lit "Plain final answer.")).llm
        (MultiAgent.taskMessages demoAgent (lit "T") []) ∧
    (MultiAgent.execute_agent_task (advDemoO (lit "Plain final answer.")) demoSys
        (lit "researcher") (lit "T") []).trace =
      ([MultiAgent.taskMessages demoAgent (lit "T") []], []) := by
  refine ⟨rfl, ?_⟩
  exact thm_C4 (advDemoO (lit "Plain final answer.")) demoSys
    (lit "researcher") (lit "T") [] demoAgent rfl (Or.inl rfl)

/-- C5: a response that begins with a brace after trimming and contains the
substring "action" but is not valid JSON does not raise: the parse failure is
absorbed and the response is the final result, with no tool invocation and no
second completion call. -/
theorem thm_C5 (o : MultiAgent.Oracles) (sys : MultiAgent.MultiAgentSystem)
    (name task context : PyStr) (agent : MultiAgent.CrewAgent)
    (hag : alistFind sys.agents name = some agent)
    (h1 : pyStartsWith (lit "\x7b")
        (pyStrip (o.llm (MultiAgent.taskMessages agent task context))) = true)
    (h2 : pyContains (o.llm (MultiAgent.taskMessages agent task context))
        (lit "action") = true)
    (hloads : o.loads (o.llm (MultiAgent.taskMessages agent task context)) = none) :
    (MultiAgent.execute_agent_task o sys name task context).response =
      o.llm (MultiAgent.taskMessages agent task context) ∧
    (MultiAgent.execute_agent_task o sys name task context).trace =
      ([MultiAgent.taskMessages agent task context], []) := by
  have hcond : (pyStartsWith (lit "\x7b")
      (pyStrip (o.llm (MultiAgent.taskMessages agent task context))) &&
      pyContains (o.llm (MultiAgent.taskMessages agent task context)) (lit "action")) = true := by
    rw [h1, h2]
    rfl
  have hE := MultiAgent.exec_badjson o sys name task context agent hag hcond hloads
  rw [hE]
  exact ⟨rfl, rfl⟩

/-- C5 witness: a concrete run on a brace-and-"action" text that is not JSON. -/
theorem thm_C5_witness :
    pyStartsWith (lit "\x7b") (pyStrip badJsonText) = true ∧
    demoLoads badJsonText = none ∧
    (MultiAgent.execute_agent_task (advDemoO badJsonText) demoSys
        (lit "researcher") (lit "T") []).response =
      (advDemoO badJsonText).llm (MultiAgent.taskMessages demoAgent (lit "T") []) ∧
    (MultiAgent.execute_agent_task (advDemoO badJsonText) demoSys
        (lit "researcher") (lit "T") []).trace =
      ([MultiAgent.taskMessages demoAgent (lit "T") []], []) := by
  refine ⟨rfl, rfl, ?_⟩
  exact thm_C5 (advDemoO badJsonText) demoSys (lit "researcher") (lit "T") []
    demoAgent rfl rfl rfl rfl

/-- C6: after every completed chat call the conversation history holds at most
10 entries (the trim to the most recent 10 is applied after every exchange),
and reset_conversation sets the history length to exactly zero. -/
theorem thm_C6 :
    (∀ (o : SimpleAgent.Oracles) (cfg : SimpleAgent.AgentConfig)
      (history : List Message) (u : PyStr) (sp : Option PyStr) (r : PyStr)
      (h' : List Message),
      SimpleAgent.chat o cfg history u sp = Except.ok (r, h') → h'.length ≤ 10) ∧
    (∀ history : List Message, (SimpleAgent.reset_conversation history).length = 0) := by
  constructor
  · intro o cfg history u sp r h' hch
    unfold SimpleAgent.chat at hch
    dsimp only at hch
    split at hch
    · exact Except.noConfusion hch
    · split at hch
      · exact Except.noConfusion hch
      · split at hch
        · injection hch with hpair
          injection hpair with h1 h2
          rw [← h2]
          simp only [lastN, List.length_drop]
          omega
        · rename_i hle
          injection hch with hpair
          injection hpair with h1 h2
          rw [← h2]
          simp only [List.length_append, List.length_cons, List.length_nil] at hle ⊢
          omega
  · intro history
    rfl

/-- C6 witness: one concrete completed chat call from an empty history. -/
theorem thm_C6_witness :
    SimpleAgent.chat simpleDemoO simpleDemoCfg [] (lit "hi") none =
      Except.ok (lit "Hello there",
        [⟨lit "user", lit "hi"⟩, ⟨lit "assistant", lit "Hello there"⟩]) ∧
    ([⟨lit "user", lit "hi"⟩, ⟨lit "assistant", lit "Hello there"⟩] : List Message).length ≤ 10 := by
  constructor
  · rfl
  · exact thm_C6.1 simpleDemoO simpleDemoCfg [] (lit "hi") none (lit "Hello there")
      [⟨lit "user", lit "hi"⟩, ⟨lit "assistant", lit "Hello there"⟩] rfl

/-- C7 counterexample: on a transport failure the simple-agent completion
client does NOT return a result — `_make_request` re-raises
`Exception("Error communicating with model: ...")` to its caller, so the claim
as stated is false (shown at the concrete outcome of a RequestException with
message "Connection refused"). -/
theorem thm_C7_cex : ¬ C7_claim := by
  intro h
  have hc := h (fun _ => lit "err") (lit "decode")
    (SimpleAgent.ReqOutcome.exn (lit "Connection refused")) trivial
  exact Bool.noConfusion hc

/-- C7 amended: on any network/transport failure, HTTP error status (4xx/5xx),
or unparseable body, the simple-agent completion client raises an exception to
its caller whose message is the textual
"Error communicating with model: ..." (rather than returning a result). -/
theorem thm_C7 (httpMsg : Nat → PyStr) (decodeMsg : PyStr)
    (out : SimpleAgent.ReqOutcome) (hf : SimpleAgent.failingOutcome out) :
    SimpleAgent.make_request httpMsg decodeMsg out =
      Except.error (lit "Error communicating with model: " ++
        reqFailureMsg httpMsg decodeMsg out) := by
  cases out with
  | exn m => rfl
  | resp status body =>
    unfold SimpleAgent.make_request reqFailureMsg
    dsimp only
    by_cases hc : 400 ≤ status ∧ status < 600
    · rw [if_pos hc, if_pos hc]
    · rw [if_neg hc, if_neg hc]
      rcases hf with h4 | hb
      · exact absurd h4 hc
      · rw [hb]

/-- C7 witness: the amended behaviour at the concrete transport failure. -/
theorem thm_C7_witness :
    SimpleAgent.failingOutcome (SimpleAgent.ReqOutcome.exn (lit "Connection refused")) ∧
    SimpleAgent.make_request (fun _ => lit "err") (lit "decode")
        (SimpleAgent.ReqOutcome.exn (lit "Connection refused")) =
      Except.error (lit "Error communicating with model: " ++
        reqFailureMsg (fun _ => lit "err") (lit "decode")
          (SimpleAgent.ReqOutcome.exn (lit "Connection refused"))) :=
  ⟨trivial, thm_C7 (fun _ => lit "err") (lit "decode")
    (SimpleAgent.ReqOutcome.exn (lit "Connection refused")) trivial⟩

/-- C8: tool discovery is never fatal — on every failed discovery outcome
(transport exception, non-200 status, or unparseable body) the constructor
completes and leaves the available-tools mapping empty. -/
theorem thm_C8 (url : PyStr) (out : MultiAgent.GetOutcome)
    (hf : MultiAgent.discFailure out) :
    (MultiAgent.mcpToolManagerInit url out).available_tools = Json.obj [] := by
  cases out with
  | exn m => rfl
  | resp status body =>
    have hred : (MultiAgent.mcpToolManagerInit url
        (MultiAgent.GetOutcome.resp status body)).available_tools =
        MultiAgent.discover_tools (MultiAgent.GetOutcome.resp status body) := rfl
    rw [hred]
    unfold MultiAgent.discover_tools
    dsimp only
    rcases hf with hs | hb
    · rw [if_neg hs]
    · rw [hb]
      split <;> rfl

/-- C8 witness: the concrete transport-exception outcome. -/
theorem thm_C8_witness :
    MultiAgent.discFailure (MultiAgent.GetOutcome.exn (lit "connection refused")) ∧
    (MultiAgent.mcpToolManagerInit (lit "http://localhost:3000")
        (MultiAgent.GetOutcome.exn (lit "connection refused"))).available_tools =
      Json.obj [] :=
  ⟨trivial, thm_C8 (lit "http://localhost:3000")
    (MultiAgent.GetOutcome.exn (lit "connection refused")) trivial⟩

/-- C10: after a call to think returns — whether the underlying chat call
returns normally or raises — the whole configuration (in particular
reasoning_level) equals its value from before the call; the temporary
override is never observable afterwards. -/
theorem thm_C10 (o : SimpleAgent.Oracles) (cfg : SimpleAgent.AgentConfig)
    (history : List Message) (task lvl : PyStr) :
    (SimpleAgent.think o cfg history task lvl).2.1 = cfg := by
  unfold SimpleAgent.think
  dsimp only
  split <;> rfl

namespace MultiAgent

theorem workflow_prefix_spec (o : Oracles) (sys : MultiAgentSystem)
    (workflow : List WorkflowStep) :
    ∀ i, i ≤ workflow.length →
      ∃ tailA,
        (runStepsAux o (workflow.take i) 1 [] sys []).results = tailA ∧
        tailA.length = i ∧
        (runStepsAux o (workflow.take i) 1 [] sys []).context =
          (List.zipWith ctxLine ((workflow.take i).map WorkflowStep.agent)
            (tailA.map fun e => e.2.result)).flatten ∧
        (execute_crew_workflow o sys workflow).1.take i = tailA := by
  intro i hi
  obtain ⟨tailA, hresA, hlenA, hctxA, hentA, _, _⟩ :=
    runStepsAux_master o (workflow.take i) 1 [] sys []
      (by intro p hp j a hj; exact absurd hp (List.not_mem_nil p))
  have htklen : (workflow.take i).length = i := by
    rw [List.length_take]
    exact Nat.min_eq_left hi
  have hresA' : (runStepsAux o (workflow.take i) 1 [] sys []).results = tailA := by
    simpa using hresA
  have hlenA' : tailA.length = i := by
    rw [hlenA, htklen]
  have hfreshA : ∀ p ∈ tailA, ∀ j a, 1 + i ≤ j → p.1 ≠ stepKey j a := by
    intro p hp j a hj hceq
    obtain ⟨idx, hidx⟩ := List.mem_iff_getElem?.mp hp
    have hlt : idx < tailA.length := by
      rcases List.getElem?_eq_some_iff.mp hidx with ⟨h, _⟩
      exact h
    have hidxi : idx < i := by
      rw [hlenA'] at hlt
      exact hlt
    have hlt' : idx < (workflow.take i).length := by
      rw [htklen]
      exact hidxi
    obtain ⟨st', r', _, htl', _⟩ := hentA idx hlt'
    rw [hidx] at htl'
    injection htl' with hpe
    rw [hpe] at hceq
    have hij := stepKey_inj_index hceq
    omega
  have hfreshA2 : ∀ p ∈ (runStepsAux o (workflow.take i) 1 [] sys []).results,
      ∀ j a, 1 + (workflow.take i).length ≤ j → p.1 ≠ stepKey j a := by
    intro p hp j a hj
    rw [hresA'] at hp
    rw [htklen] at hj
    exact hfreshA p hp j a hj
  obtain ⟨tailB, hresB, _, _, _, _, _⟩ :=
    runStepsAux_master o (workflow.drop i) (1 + (workflow.take i).length)
      (runStepsAux o (workflow.take i) 1 [] sys []).context
      (runStepsAux o (workflow.take i) 1 [] sys []).sys
      (runStepsAux o (workflow.take i) 1 [] sys []).results hfreshA2
  have hdec := runStepsAux_append o (workflow.take i) (workflow.drop i) 1 [] sys []
  rw [List.take_append_drop] at hdec
  have hfull2 : (runStepsAux o workflow 1 [] sys []).results = tailA ++ tailB := by
    rw [hdec, hresB, hresA']
  have htake : (execute_crew_workflow o sys workflow).1.take i = tailA := by
    have hfull : (execute_crew_workflow o sys workflow).1 =
        (runStepsAux o workflow 1 [] sys []).results := rfl
    rw [hfull, hfull2]
    exact List.take_left' hlenA'
  refine ⟨tailA, hresA', hlenA', ?_, htake⟩
  simpa using hctxA

end MultiAgent

/-- C1 amended: for every completion response that parses as a JSON object
with action field exactly "use_tool", tool name t and parameter mapping p,
AND whose trimmed text starts with a brace and whose text contains the
literal substring "action" (the code's sniff precondition), execute_agent_task
invokes the tool gateway exactly once with tool t and parameters p, then
performs exactly one additional completion call whose response becomes the
task's final result; a tool call contained in that second response is never
resolved (the trace is fixed whatever that second response is). -/
theorem thm_C1 (o : MultiAgent.Oracles) (sys : MultiAgent.MultiAgentSystem)
    (name task context : PyStr) (agent : MultiAgent.CrewAgent)
    (j : Json) (t : PyStr) (p : Json)
    (hag : alistFind sys.agents name = some agent)
    (h1 : pyStartsWith (lit "\x7b")
        (pyStrip (o.llm (MultiAgent.taskMessages agent task context))) = true)
    (h2 : pyContains (o.llm (MultiAgent.taskMessages agent task context))
        (lit "action") = true)
    (hloads : o.loads (o.llm (MultiAgent.taskMessages agent task context)) = some j)
    (hact : objGet j (lit "action") = some (Json.str (lit "use_tool")))
    (htool : objGet j (lit "tool") = some (Json.str t))
    (hparams : objGet j (lit "parameters") = some p) :
    (MultiAgent.execute_agent_task o sys name task context).trace =
      ([MultiAgent.taskMessages agent task context,
        MultiAgent.toolRoundMessages o agent task context t p],
       [(Json.str t, p)]) ∧
    (MultiAgent.execute_agent_task o sys name task context).response =
      o.llm (MultiAgent.toolRoundMessages o agent task context t p) := by
  have hcond : (pyStartsWith (lit "\x7b")
      (pyStrip (o.llm (MultiAgent.taskMessages agent task context))) &&
      pyContains (o.llm (MultiAgent.taskMessages agent task context)) (lit "action")) = true := by
    rw [h1, h2]
    rfl
  have hE := MultiAgent.exec_tool o sys name task context agent j t p
    hag hcond hloads hact htool hparams
  rw [hE]
  exact ⟨rfl, rfl⟩

/-- C1 witness: a concrete well-formed tool-call response. -/
theorem thm_C1_witness :
    alistFind demoSys.agents (lit "researcher") = some demoAgent ∧
    demoLoads toolCallText = some toolCallJson ∧
    (MultiAgent.execute_agent_task (advDemoO toolCallText) demoSys
        (lit "researcher") (lit "T") []).trace =
      ([MultiAgent.taskMessages demoAgent (lit "T") [],
        MultiAgent.toolRoundMessages (advDemoO toolCallText) demoAgent (lit "T") []
          (lit "calc") (Json.obj [(lit "x", Json.num 1)])],
       [(Json.str (lit "calc"), Json.obj [(lit "x", Json.num 1)])]) ∧
    (MultiAgent.execute_agent_task (advDemoO toolCallText) demoSys
        (lit "researcher") (lit "T") []).response =
      (advDemoO toolCallText).llm
        (MultiAgent.toolRoundMessages (advDemoO toolCallText) demoAgent (lit "T") []
          (lit "calc") (Json.obj [(lit "x", Json.num 1)])) := by
  refine ⟨rfl, rfl, ?_⟩
  exact thm_C1 (advDemoO toolCallText) demoSys (lit "researcher") (lit "T") []
    demoAgent toolCallJson (lit "calc") (Json.obj [(lit "x", Json.num 1)])
    rfl rfl rfl rfl rfl rfl rfl

/-- C1 counterexample: the claim as stated (with no condition on the response
TEXT) is false.  The response text written with the JSON escape `a` for
`a` parses (as Python json.loads does) to an object with action "use_tool",
tool "calc" and parameters, yet the code's sniff `'action' in response` fails
on the text, so the gateway is never invoked and no second completion call is
made. -/
theorem thm_C1_cex : ¬ C1_claim := by
  intro h
  have hc := h (advDemoO escText) demoSys (lit "researcher") (lit "T") []
    demoAgent escJson (lit "calc") (Json.obj []) rfl rfl rfl rfl rfl
  obtain ⟨htr, _⟩ := hc
  have hempty : (MultiAgent.execute_agent_task (advDemoO escText) demoSys
      (lit "researcher") (lit "T") []).trace.2 = [] := rfl
  have hcontra : ([] : List (Json × Json)) =
      [(Json.str (lit "calc"), Json.obj [])] := hempty.symm.trans htr
  exact List.noConfusion hcontra

/-- C9: executing a step with a registered agent appends exactly two entries
to that agent's full conversation history — the task prompt (which contains
the task text) as a user-role entry and the final result as an
assistant-role entry — and the workflow path never trims any agent's history:
across a whole workflow run each agent's previous history remains a prefix of
its new history (unbounded growth within a run). -/
theorem thm_C9 :
    (∀ (o : MultiAgent.Oracles) (sys : MultiAgent.MultiAgentSystem)
      (name task context : PyStr) (agent : MultiAgent.CrewAgent),
      alistFind sys.agents name = some agent →
      alistFind (MultiAgent.execute_agent_task o sys name task context).sys.agents name =
        some { agent with conversation_history := agent.conversation_history ++
          [⟨lit "user", MultiAgent.mkTaskPrompt task context⟩,
           ⟨lit "assistant",
            (MultiAgent.execute_agent_task o sys name task context).response⟩] } ∧
      task <:+: MultiAgent.mkTaskPrompt task context) ∧
    (∀ (o : MultiAgent.Oracles) (sys : MultiAgent.MultiAgentSystem)
      (workflow : List MultiAgent.WorkflowStep) (name : PyStr)
      (agent : MultiAgent.CrewAgent),
      alistFind sys.agents name = some agent →
      ∃ agent2,
        alistFind (MultiAgent.execute_crew_workflow o sys workflow).2.agents name =
          some agent2 ∧
        agent.conversation_history <+: agent2.conversation_history) := by
  constructor
  · intro o sys name task ctx ag hag
    constructor
    · rw [MultiAgent.exec_found o sys name task ctx ag hag]
      exact alistFind_set_self _ _ _
    · unfold MultiAgent.mkTaskPrompt
      cases ctx with
      | nil => exact ⟨lit "Task: ", [], by simp⟩
      | cons c cs =>
        exact ⟨lit "Task: ", lit "\n\nContext from previous agents: " ++ (c :: cs), by simp⟩
  · intro o sys wf name ag hag
    obtain ⟨tail, _, _, _, _, _, hpre⟩ := MultiAgent.runStepsAux_master o wf 1 [] sys []
      (by intro p hp j a hj; exact absurd hp (List.not_mem_nil p))
    obtain ⟨ag2, h2, hp2⟩ := hpre name ag hag
    exact ⟨ag2, h2, hp2⟩

/-- C9 witness: a concrete step execution on the demo system. -/
theorem thm_C9_witness :
    alistFind demoSys.agents (lit "researcher") = some demoAgent ∧
    alistFind (MultiAgent.execute_agent_task (advDemoO (lit "Findings about X")) demoSys
        (lit "researcher") (lit "Research X") []).sys.agents (lit "researcher") =
      some { demoAgent with conversation_history := demoAgent.conversation_history ++
        [⟨lit "user", MultiAgent.mkTaskPrompt (lit "Research X") []⟩,
         ⟨lit "assistant",
          (MultiAgent.execute_agent_task (advDemoO (lit "Findings about X")) demoSys
            (lit "researcher") (lit "Research X") []).response⟩] } ∧
    lit "Research X" <:+: MultiAgent.mkTaskPrompt (lit "Research X") [] := by
  refine ⟨rfl, ?_, ?_⟩
  · exact (thm_C9.1 (advDemoO (lit "Findings about X")) demoSys
      (lit "researcher") (lit "Research X") [] demoAgent rfl).1
  · exact (thm_C9.1 (advDemoO (lit "Findings about X")) demoSys
      (lit "researcher") (lit "Research X") [] demoAgent rfl).2

/-- C2: an N-step workflow always returns a mapping with exactly N entries,
keyed step_1_agent through step_N_agent in 1-based input order, each holding
the step's task text and a result text; a step whose agent name is not
registered yields the literal text naming the missing agent, and the workflow
never aborts on a single-step failure (the result is total). -/
theorem thm_C2 (o : MultiAgent.Oracles) (sys : MultiAgent.MultiAgentSystem)
    (workflow : List MultiAgent.WorkflowStep) :
    (MultiAgent.execute_crew_workflow o sys workflow).1.length = workflow.length ∧
    (∀ jx, jx < workflow.length → ∃ st r,
      workflow[jx]? = some st ∧
      (MultiAgent.execute_crew_workflow o sys workflow).1[jx]? =
        some (MultiAgent.stepKey (jx + 1) st.agent, ⟨st.task, r, o.clock (jx + 1)⟩) ∧
      (alistFind sys.agents st.agent = none →
        r = lit "Agent " ++ st.agent ++ lit " not found")) := by
  obtain ⟨tail, hres, hlen, _, hent, _, _⟩ := MultiAgent.runStepsAux_master o workflow 1 [] sys []
    (by intro p hp j a hj; exact absurd hp (List.not_mem_nil p))
  have hresults : (MultiAgent.execute_crew_workflow o sys workflow).1 = tail := by
    have hr : (MultiAgent.execute_crew_workflow o sys workflow).1 =
        (MultiAgent.runStepsAux o workflow 1 [] sys []).results := rfl
    rw [hr]
    simpa using hres
  constructor
  · rw [hresults, hlen]
  · intro jx hj
    obtain ⟨st, r, hst, htl, himp⟩ := hent jx hj
    have hc : 1 + jx = jx + 1 := by omega
    rw [hc] at htl
    refine ⟨st, r, hst, ?_, himp⟩
    rw [hresults]
    exact htl

/-- C2 witness: the two-step demo workflow whose second step names an
unregistered agent; its recorded result is the literal not-found text. -/
theorem thm_C2_witness :
    alistFind demoSys.agents (lit "ghost") = none ∧
    (MultiAgent.execute_crew_workflow (advDemoO (lit "Findings about X")) demoSys
        demoWorkflow).1[1]? =
      some (MultiAgent.stepKey 2 (lit "ghost"),
        ⟨lit "Analyze X", lit "Agent " ++ lit "ghost" ++ lit " not found",
         (advDemoO (lit "Findings about X")).clock 2⟩) := by
  constructor
  · rfl
  · have h1lt : 1 < demoWorkflow.length := by decide
    obtain ⟨st, r, hst, htl, himp⟩ :=
      (thm_C2 (advDemoO (lit "Findings about X")) demoSys demoWorkflow).2 1 h1lt
    have h0 : demoWorkflow[1]? =
        some (⟨lit "ghost", lit "Analyze X"⟩ : MultiAgent.WorkflowStep) := rfl
    rw [h0] at hst
    injection hst with he
    subst he
    have hr := himp rfl
    rw [hr] at htl
    exact htl

/-- C3: the workflow context buffer is order-preserving and monotonically
growing: after step i the context equals the concatenation, in step order, of
the line "agent completed: result" (each on its own appended line) for every
step up to i; appending step i's line never removes or modifies earlier
content (the previous context is a prefix), and each step's line occurs as a
substring of every later context state. -/
theorem thm_C3 (o : MultiAgent.Oracles) (sys : MultiAgent.MultiAgentSystem)
    (workflow : List MultiAgent.WorkflowStep) :
    (∀ i, i ≤ workflow.length →
      MultiAgent.workflowContextAfter o sys workflow i =
        (List.zipWith MultiAgent.ctxLine
          ((workflow.take i).map MultiAgent.WorkflowStep.agent)
          (((MultiAgent.execute_crew_workflow o sys workflow).1.take i).map
            fun e => e.2.result)).flatten) ∧
    (∀ i, i < workflow.length →
      MultiAgent.workflowContextAfter o sys workflow i <+:
        MultiAgent.workflowContextAfter o sys workflow (i + 1)) ∧
    (∀ i, i ≤ workflow.length → ∀ jx, jx < i → ∀ st e,
      workflow[jx]? = some st →
      (MultiAgent.execute_crew_workflow o sys workflow).1[jx]? = some e →
      MultiAgent.ctxLine st.agent e.2.result <:+:
        MultiAgent.workflowContextAfter o sys workflow i) := by
  refine ⟨?_, ?_, ?_⟩
  · intro i hi
    obtain ⟨tailA, hres, hlen, hctx, htake⟩ :=
      MultiAgent.workflow_prefix_spec o sys workflow i hi
    unfold MultiAgent.workflowContextAfter
    rw [htake, hctx]
  · intro i hi
    unfold MultiAgent.workflowContextAfter
    rw [List.take_succ, List.getElem?_eq_getElem hi]
    rw [MultiAgent.runStepsAux_append]
    exact ⟨_, rfl⟩
  · intro i hi jx hjx st e hstEq heEq
    obtain ⟨tailA, hres, hlen, hctx, htake⟩ :=
      MultiAgent.workflow_prefix_spec o sys workflow i hi
    have hs2 : (workflow.take i)[jx]? = some st := by
      rw [List.getElem?_take_of_lt hjx]
      exact hstEq
    have he2 : tailA[jx]? = some e := by
      rw [← htake, List.getElem?_take_of_lt hjx]
      exact heEq
    unfold MultiAgent.workflowContextAfter
    rw [hctx]
    apply List.infix_of_mem_flatten
    apply List.mem_iff_getElem?.mpr
    refine ⟨jx, ?_⟩
    rw [List.getElem?_zipWith, List.getElem?_map, List.getElem?_map, hs2, he2]
    rfl

/-- C3 witness: on the demo workflow, the context after step 0 is a prefix of
the context after step 1. -/
theorem thm_C3_witness :
    0 < demoWorkflow.length ∧
    MultiAgent.workflowContextAfter (advDemoO (lit "Findings about X")) demoSys
        demoWorkflow 0 <+:
      MultiAgent.workflowContextAfter (advDemoO (lit "Findings about X")) demoSys
        demoWorkflow 1 := by
  constructor
  · decide
  · exact (thm_C3 (advDemoO (lit "Findings about X")) demoSys demoWorkflow).2.1 0 (by decide)
